import Mathlib

set_option maxHeartbeats 1000000

/-! Shallow embedding of the write-buffer stripe manager
    (src/allocator/stripe_manager/wbstripe_manager.cpp) and proofs about it. -/

/-- Modelled from the spec: sentinel stripe id (UINT32_MAX); the address-type
    header is not among the analysed sources. -/
def UNMAP_STRIPE : Nat := 4294967295

/-- Modelled from the spec: sentinel block offset (UINT64_MAX). -/
def UNMAP_OFFSET : Nat := 18446744073709551615

/-- Modelled from the spec: sentinel reverse-map block address. -/
def INVALID_RBA : Nat := 18446744073709551615

/-- Modelled from the spec: sentinel volume id (UINT32_MAX) written into unused
    reverse-map tail entries. -/
def SENTINEL_VOLUME : Nat := 4294967295

/-- Virtual block address: a stripe id plus an offset within the stripe. -/
structure VirtualBlkAddr where
  stripeId : Nat
  offset : Nat
deriving DecidableEq, Repr

/-- Modelled from the spec: UNMAP_VSA pairs the two unmap sentinels. -/
def UNMAP_VSA : VirtualBlkAddr := { stripeId := UNMAP_STRIPE, offset := UNMAP_OFFSET }

/-- Location tag of a logical stripe address. -/
inductive StripeLoc where
  | IN_WRITE_BUFFER_AREA
  | IN_USER_AREA
deriving DecidableEq, Repr

/-- Logical stripe address as returned by the stripe-map service. -/
structure StripeAddr where
  stripeLoc : StripeLoc
  stripeId : Nat
deriving DecidableEq, Repr

/-- A contiguous range of virtual blocks. -/
structure VirtualBlks where
  startVsa : VirtualBlkAddr
  numBlks : Nat
deriving DecidableEq, Repr

/-- Modelled from the spec: the per-stripe handle of spec section 4.1 (the
    stripe class itself is not among the analysed sources). revMap holds one
    optional (rba, volumeId) pair per block offset. flushResult is an oracle
    for the integer that a Flush(event) submission on this stripe returns. -/
structure Stripe where
  vsid : Nat
  userLsid : Nat
  wbLsid : Nat
  volumeId : Nat
  blksRemaining : Nat
  refCount : Nat
  finished : Bool
  activeFlushTarget : Bool
  revMap : List (Option (Nat × Nat))
  flushIo : Option Nat
  flushResult : Int
deriving DecidableEq, Repr

/-- Modelled from the spec: a freshly constructed stripe has blksPerStripe
    blocks remaining and an unwritten reverse map. -/
def newStripe (blksPerStripe : Nat) : Stripe :=
  { vsid := 0, userLsid := 0, wbLsid := 0, volumeId := 0,
    blksRemaining := blksPerStripe, refCount := 0, finished := false,
    activeFlushTarget := false, revMap := List.replicate blksPerStripe none,
    flushIo := none, flushResult := 0 }

/-- Modelled from the spec: one-shot initialization of the stripe ids. -/
def Stripe.Assign (st : Stripe) (vsid wbLsid userLsid volumeId : Nat) : Stripe :=
  { st with vsid := vsid, wbLsid := wbLsid, userLsid := userLsid, volumeId := volumeId }

/-- Modelled from the spec: Refer increments the reference count. -/
def Stripe.Refer (st : Stripe) : Stripe :=
  { st with refCount := st.refCount + 1 }

/-- Modelled from the spec: Derefer decrements the reference counter by the
    block count (caller invariant: never below zero). -/
def Stripe.Derefer (st : Stripe) (blockCount : Nat) : Stripe :=
  { st with refCount := st.refCount - blockCount }

/-- Modelled from the spec: atomically subtract and return the new value
    (caller invariant: never subtract more than the current count). -/
def Stripe.DecreseBlksRemaining (st : Stripe) (amount : Nat) : Nat × Stripe :=
  (st.blksRemaining - amount, { st with blksRemaining := st.blksRemaining - amount })

/-- Modelled from the spec: write one reverse-map slot. -/
def Stripe.UpdateReverseMapEntry (st : Stripe) (offset rba volumeId : Nat) : Stripe :=
  { st with revMap := st.revMap.set offset (some (rba, volumeId)) }

/-- Modelled from the spec: idempotent flush-target marker. -/
def Stripe.SetActiveFlushTarget (st : Stripe) : Stripe :=
  { st with activeFlushTarget := true }

/-- Modelled from the spec: attach a flush io to the stripe. -/
def Stripe.UpdateFlushIo (st : Stripe) (io_ : Nat) : Stripe :=
  { st with flushIo := some io_ }

/-- Observable side effects of manager operations: flush submissions
    (_RequestStripeFlush), busy-waits for flush completion, and flush-io
    attachments, each tagged with the target slot index. -/
inductive WbAction where
  | flushSubmit (wbLsid : Nat) (result : Int)
  | waitFlush (wbLsid : Nat)
  | attachFlushIo (wbLsid : Nat) (flushIo : Nat)
deriving DecidableEq, Repr

/-- Manager state. The registry (wbStripeArray) is the slot table indexed by
    write-buffer LSID. External collaborators are modelled as functions:
    activeStripeTail is the allocator context, lsaMap and isInUserDataArea the
    stripe-map service, volumeMounted the volume manager, vsidToUserLsid the
    vsid-to-user-lsid translation, and reconstructReverseMapRet the integer the
    reverse-map service returns from ReconstructReverseMap. -/
structure WBStripeManager where
  totalNvmStripes : Nat
  blksPerStripe : Nat
  wbStripeArray : List (Option Stripe)
  activeStripeTail : Nat → VirtualBlkAddr
  lsaMap : Nat → StripeAddr
  isInUserDataArea : StripeAddr → Bool
  volumeMounted : Nat → Bool
  vsidToUserLsid : Nat → Nat
  reconstructReverseMapRet : Int

/-- Result of reading a registry slot in a total embedding: outOfRange marks
    an index past the end of the vector (undefined behavior in the C++). -/
inductive SlotRead where
  | outOfRange
  | slot (s : Option Stripe)
deriving DecidableEq, Repr

/-- Total registry read. -/
def readSlot (arr : List (Option Stripe)) (i : Nat) : SlotRead :=
  match arr[i]? with
  | none => SlotRead.outOfRange
  | some s => SlotRead.slot s

/-- Registry write (callers establish the index is in range). -/
def setSlot (m : WBStripeManager) (i : Nat) (s : Option Stripe) : WBStripeManager :=
  { m with wbStripeArray := m.wbStripeArray.set i s }

/-- Embeds WBStripeManager::_GetStripe: null for user-area addresses,
    otherwise an unchecked registry read at lsa.stripeId. -/
def _GetStripe (m : WBStripeManager) (lsa : StripeAddr) : SlotRead :=
  if m.isInUserDataArea lsa then SlotRead.slot none
  else readSlot m.wbStripeArray lsa.stripeId

/-- Embeds WBStripeManager::GetStripe: an unchecked registry read. -/
def GetStripe (m : WBStripeManager) (wbLsid : Nat) : SlotRead :=
  readSlot m.wbStripeArray wbLsid

/-- Embeds WBStripeManager::ReferLsidCnt; none encodes the undefined behavior
    of an out-of-range registry read. -/
def ReferLsidCnt (m : WBStripeManager) (lsa : StripeAddr) : Option (Bool × WBStripeManager) :=
  match _GetStripe m lsa with
  | SlotRead.outOfRange => none
  | SlotRead.slot none => some (false, m)
  | SlotRead.slot (some st) => some (true, setSlot m lsa.stripeId (some st.Refer))

/-- Embeds WBStripeManager::DereferLsidCnt; none encodes the undefined
    behavior of an out-of-range registry read. -/
def DereferLsidCnt (m : WBStripeManager) (lsa : StripeAddr) (blockCount : Nat) : Option WBStripeManager :=
  match _GetStripe m lsa with
  | SlotRead.outOfRange => none
  | SlotRead.slot none => some m
  | SlotRead.slot (some st) => some (setSlot m lsa.stripeId (some (st.Derefer blockCount)))

/-- Embeds WBStripeManager::_GetRemainingBlocks. -/
def _GetRemainingBlocks (m : WBStripeManager) (tail : VirtualBlkAddr) : VirtualBlks :=
  if tail.offset = UNMAP_OFFSET then { startVsa := UNMAP_VSA, numBlks := 0 }
  else if m.blksPerStripe < tail.offset then { startVsa := UNMAP_VSA, numBlks := 0 }
  else if m.blksPerStripe - tail.offset = 0 then { startVsa := UNMAP_VSA, numBlks := 0 }
  else { startVsa := tail, numBlks := m.blksPerStripe - tail.offset }

/-- Sentinel writes of the fill loop of _FillBlocksToStripe: cnt writes
    starting at block index start. -/
def fillSentinels (st : Stripe) (start cnt : Nat) : Stripe :=
  match cnt with
  | 0 => st
  | Nat.succ c => fillSentinels (st.UpdateReverseMapEntry start INVALID_RBA SENTINEL_VOLUME) (start + 1) c

/-- Embeds WBStripeManager::_FillBlocksToStripe. The loop bounds follow the
    C arithmetic: startBlock is startOffset truncated to uint32, lastBlock is
    startOffset + numBlks - 1 computed in uint64 then truncated to uint32, and
    the loop body runs for blocks startBlock..lastBlock when that range is
    non-empty. Then the flush-target flag is set, blksRemaining is decremented
    by numBlks, and the flag telling whether the new remaining count is zero
    is returned. -/
def _FillBlocksToStripe (stripe : Stripe) (startOffset numBlks : Nat) : Stripe × Bool :=
  let startBlock := startOffset % 4294967296
  let lastBlock := ((startOffset + numBlks + 18446744073709551615) % 18446744073709551616) % 4294967296
  let cnt := if startBlock ≤ lastBlock then lastBlock + 1 - startBlock else 0
  let st1 := (fillSentinels stripe startBlock cnt).SetActiveFlushTarget
  let dec := st1.DecreseBlksRemaining numBlks
  (dec.2, dec.1 == 0)

/-- Result of FinishStripe: earlyReturn is the logged bounds-check return,
    oobRead marks the unchecked out-of-range registry read (undefined behavior
    in the C++), nullAssert the failed non-null assertion, and ok carries the
    flushRequired flag computed by the fill. -/
inductive FinishRes where
  | earlyReturn
  | oobRead
  | nullAssert
  | ok (flushRequired : Bool)
deriving DecidableEq, Repr

/-- Embeds WBStripeManager::FinishStripe. Note the source guard is a strict
    comparison wbLsid > totalNvmStripes. No flush is submitted here. -/
def FinishStripe (m : WBStripeManager) (wbLsid : Nat) (tail : VirtualBlkAddr) :
    FinishRes × WBStripeManager × List WbAction :=
  if m.totalNvmStripes < wbLsid then (FinishRes.earlyReturn, m, [])
  else
    match readSlot m.wbStripeArray wbLsid with
    | SlotRead.outOfRange => (FinishRes.oobRead, m, [])
    | SlotRead.slot none => (FinishRes.nullAssert, m, [])
    | SlotRead.slot (some stripe) =>
      let r := _GetRemainingBlocks m tail
      let fill := _FillBlocksToStripe stripe r.startVsa.offset r.numBlks
      (FinishRes.ok fill.2, setSlot m wbLsid (some fill.1), [])

/-- Modelled from the spec: the WRONG_BLOCK_COUNT error id returned by
    _ReconstructAS; the numeric event-id table is not among the analysed
    sources, only the sign (negative) matters to control flow. -/
def ERRID_WRONG_BLOCK_COUNT : Int := -3005

/-- Modelled from the spec: the SUCCESS event id, non-negative. -/
def EID_SUCCESS : Int := 0

/-- Embeds WBStripeManager::_ReconstructAS. -/
def _ReconstructAS (st : Stripe) (blockCount : Nat) : Int × Stripe :=
  if blockCount = 0 then (ERRID_WRONG_BLOCK_COUNT, st)
  else (EID_SUCCESS, (st.DecreseBlksRemaining blockCount).2)

/-- Embeds WBStripeManager::AssignStripe; none encodes the asserted
    precondition (slot empty and in range) failing. -/
def AssignStripe (m : WBStripeManager) (stripe : Stripe) : Option WBStripeManager :=
  match readSlot m.wbStripeArray stripe.wbLsid with
  | SlotRead.slot none => some (setSlot m stripe.wbLsid (some stripe))
  | _ => none

/-- Embeds WBStripeManager::ReconstructActiveStripe. The reverse-map service
    call on the success path is external; its return value is the
    reconstructReverseMapRet oracle of the state. -/
def ReconstructActiveStripe (m : WBStripeManager) (volumeId wbLsid : Nat)
    (tailVsa : VirtualBlkAddr) : Option (Int × WBStripeManager) :=
  let stripe := (newStripe m.blksPerStripe).Assign tailVsa.stripeId wbLsid
      (m.vsidToUserLsid tailVsa.stripeId) volumeId
  match AssignStripe m stripe with
  | none => none
  | some m1 =>
    let ras := _ReconstructAS stripe tailVsa.offset
    let m2 := setSlot m1 wbLsid (some ras.2)
    if 0 ≤ ras.1 then some (m.reconstructReverseMapRet, m2)
    else some (ras.1, m2)

/-- Scan loop of FlushAllPendingStripes over the registry, carrying the slot
    index and the error accumulator; returns the accumulated return code and
    the flush submissions performed. -/
def flushPendingLoop : List (Option Stripe) → Nat → Int → Int × List WbAction
  | [], _, ret => (ret, [])
  | none :: rest, idx, ret => flushPendingLoop rest (idx + 1) ret
  | some st :: rest, idx, ret =>
    if st.blksRemaining = 0 ∧ st.finished = false then
      let next := flushPendingLoop rest (idx + 1) (if st.flushResult < 0 then st.flushResult else ret)
      (next.1, WbAction.flushSubmit idx st.flushResult :: next.2)
    else flushPendingLoop rest (idx + 1) ret

/-- Embeds WBStripeManager::FlushAllPendingStripes. -/
def FlushAllPendingStripes (m : WBStripeManager) : Int × List WbAction :=
  flushPendingLoop m.wbStripeArray 0 0

/-- Qualifying submission results of the scan, in slot order (the claim's
    notion of the submission results seen). -/
def pendingResults (arr : List (Option Stripe)) : List Int :=
  arr.filterMap fun s =>
    match s with
    | none => none
    | some st => if st.blksRemaining = 0 ∧ st.finished = false then some st.flushResult else none

/-- Last negative entry of the list, or the default when none is negative
    (the claim's aggregation rule). -/
def lastNegOr (rs : List Int) (d : Int) : Int :=
  rs.foldl (fun acc r => if r < 0 then r else acc) d

/-- Result of the arbiter path: retNull models a null return, ub the undefined
    behavior of dereferencing an empty or out-of-range slot, retStripe the
    returned stripe handle. -/
inductive FASResult where
  | retNull
  | ub
  | retStripe (st : Stripe)
deriving DecidableEq, Repr

/-- Embeds WBStripeManager::_AllocateRemainingBlocks: compute the remaining
    range from the active tail, then clear the tail. -/
def _AllocateRemainingBlocks (m : WBStripeManager) (index : Nat) : VirtualBlks × WBStripeManager :=
  (_GetRemainingBlocks m (m.activeStripeTail index),
   { m with activeStripeTail := fun i => if i = index then UNMAP_VSA else m.activeStripeTail i })

/-- Embeds WBStripeManager::_FinishRemainingBlocks: fill the tail of the slot
    stripe and submit a flush exactly when the fill left zero blocks
    remaining. -/
def _FinishRemainingBlocks (m : WBStripeManager) (wbLsid startOffset numBlks : Nat) :
    FASResult × WBStripeManager × List WbAction :=
  match readSlot m.wbStripeArray wbLsid with
  | SlotRead.outOfRange => (FASResult.ub, m, [])
  | SlotRead.slot none => (FASResult.ub, m, [])
  | SlotRead.slot (some activeStripe) =>
    let fill := _FillBlocksToStripe activeStripe startOffset numBlks
    let m1 := setSlot m wbLsid (some fill.1)
    if fill.2 = true then
      (FASResult.retStripe fill.1, m1, [WbAction.flushSubmit wbLsid fill.1.flushResult])
    else (FASResult.retStripe fill.1, m1, [])

/-- Embeds WBStripeManager::_FinishActiveStripe. The unmap test on the tail is
    modelled from the spec as equality with UNMAP_VSA (the IsUnMapVsa helper is
    not among the analysed sources). -/
def _FinishActiveStripe (m : WBStripeManager) (index : Nat) :
    FASResult × WBStripeManager × List WbAction :=
  let currentTail := m.activeStripeTail index
  if currentTail = UNMAP_VSA then (FASResult.retNull, m, [])
  else
    let stripeAddr := m.lsaMap currentTail.stripeId
    if stripeAddr.stripeLoc = StripeLoc.IN_USER_AREA ∨ stripeAddr.stripeId = UNMAP_STRIPE then
      (FASResult.retNull, m, [])
    else
      let alloc := _AllocateRemainingBlocks m index
      if alloc.1.startVsa = UNMAP_VSA then (FASResult.retNull, alloc.2, [])
      else _FinishRemainingBlocks alloc.2 stripeAddr.stripeId alloc.1.startVsa.offset alloc.1.numBlks

/-- Busy-waits of the volume-scoped quiesce loop, in slot order: one wait per
    populated slot owned by the volume. -/
def waitVolumeActs (arr : List (Option Stripe)) (idx volumeId : Nat) : List WbAction :=
  match arr with
  | [] => []
  | none :: rest => waitVolumeActs rest (idx + 1) volumeId
  | some st :: rest =>
    if st.volumeId = volumeId then WbAction.waitFlush idx :: waitVolumeActs rest (idx + 1) volumeId
    else waitVolumeActs rest (idx + 1) volumeId

/-- Embeds the one-argument WBStripeManager::FlushAllPendingStripesInVolume:
    finish the active stripe, then wait for every populated stripe of the
    volume; none encodes the undefined behavior propagated from the arbiter
    path. -/
def FlushAllPendingStripesInVolume (m : WBStripeManager) (volumeId : Nat) :
    Option (Int × WBStripeManager × List WbAction) :=
  let fas := _FinishActiveStripe m volumeId
  match fas.1 with
  | FASResult.ub => none
  | _ => some (0, fas.2.1, fas.2.2 ++ waitVolumeActs fas.2.1.wbStripeArray 0 volumeId)

/-- Registry after the flush-io attachment loop: every populated slot of the
    volume gets the flush io attached. -/
def attachFlushIoAll (arr : List (Option Stripe)) (volumeId flushIo : Nat) : List (Option Stripe) :=
  arr.map fun s =>
    match s with
    | none => none
    | some st => if st.volumeId = volumeId then some (st.UpdateFlushIo flushIo) else some st

/-- Flush-io attachments of the loop, in slot order. -/
def attachActs (arr : List (Option Stripe)) (idx volumeId flushIo : Nat) : List WbAction :=
  match arr with
  | [] => []
  | none :: rest => attachActs rest (idx + 1) volumeId flushIo
  | some st :: rest =>
    if st.volumeId = volumeId then
      WbAction.attachFlushIo idx flushIo :: attachActs rest (idx + 1) volumeId flushIo
    else attachActs rest (idx + 1) volumeId flushIo

/-- Embeds the two-argument WBStripeManager::FlushAllPendingStripesInVolume
    (with a flush io): when the volume is mounted, finish the active stripe and
    attach the flush io to every populated stripe of the volume; none encodes
    the undefined behavior propagated from the arbiter path. -/
def FlushAllPendingStripesInVolumeWithIo (m : WBStripeManager) (volumeId flushIo : Nat) :
    Option (Int × WBStripeManager × List WbAction) :=
  if m.volumeMounted volumeId = true then
    let fas := _FinishActiveStripe m volumeId
    match fas.1 with
    | FASResult.ub => none
    | _ =>
      some (0,
        { fas.2.1 with wbStripeArray := attachFlushIoAll fas.2.1.wbStripeArray volumeId flushIo },
        fas.2.2 ++ attachActs fas.2.1.wbStripeArray 0 volumeId flushIo)
  else some (0, m, [])

/-- Registry slot that the arbiter path for the given index addresses: the
    stripe id of the LSA that the stripe map reports for the active tail. -/
def activeWbLsid (m : WBStripeManager) (index : Nat) : Nat :=
  (m.lsaMap (m.activeStripeTail index).stripeId).stripeId

/-- True when the action list holds at least one flush submission. -/
def hasFlushSubmit (acts : List WbAction) : Bool :=
  acts.any fun a =>
    match a with
    | WbAction.flushSubmit _ _ => true
    | _ => false

/-- Concrete stripe: volume 3, drained, failing flush submission. -/
def stripeA : Stripe := { (newStripe 8) with volumeId := 3, blksRemaining := 0, flushResult := -7 }

/-- Concrete stripe: volume 4, drained, accepted flush submission. -/
def stripeB : Stripe := { (newStripe 8) with volumeId := 4, blksRemaining := 0, flushResult := 2 }

/-- Concrete stripe: volume 3, five blocks still unwritten. -/
def stripeC : Stripe := { (newStripe 8) with volumeId := 3, blksRemaining := 5 }

/-- Concrete manager state with three populated slots, used by witnesses. -/
def mT : WBStripeManager :=
  { totalNvmStripes := 3, blksPerStripe := 8,
    wbStripeArray := [some stripeA, some stripeB, some stripeC],
    activeStripeTail := fun _ => UNMAP_VSA,
    lsaMap := fun _ => { stripeLoc := StripeLoc.IN_USER_AREA, stripeId := 0 },
    isInUserDataArea := fun lsa => lsa.stripeLoc = StripeLoc.IN_USER_AREA,
    volumeMounted := fun _ => true,
    vsidToUserLsid := fun v => v,
    reconstructReverseMapRet := 0 }

/-- Concrete manager state with two empty slots, used at the FinishStripe
    boundary. -/
def mBug : WBStripeManager :=
  { totalNvmStripes := 2, blksPerStripe := 8,
    wbStripeArray := [none, none],
    activeStripeTail := fun _ => UNMAP_VSA,
    lsaMap := fun _ => { stripeLoc := StripeLoc.IN_WRITE_BUFFER_AREA, stripeId := 0 },
    isInUserDataArea := fun _ => false,
    volumeMounted := fun _ => true,
    vsidToUserLsid := fun v => v,
    reconstructReverseMapRet := 0 }

lemma readSlot_oob (arr : List (Option Stripe)) (i : Nat) :
    readSlot arr i = SlotRead.outOfRange ↔ arr.length ≤ i := by
  unfold readSlot
  rcases h : arr[i]? with _ | s
  · simpa using List.getElem?_eq_none_iff.mp h
  · constructor
    · intro hh; exact absurd hh (by simp)
    · intro hh
      rw [List.getElem?_eq_none hh] at h
      exact Option.noConfusion h

lemma readSlot_slot_iff (arr : List (Option Stripe)) (i : Nat) (s : Option Stripe) :
    readSlot arr i = SlotRead.slot s ↔ arr[i]? = some s := by
  unfold readSlot
  rcases h : arr[i]? with _ | t <;> simp

lemma readSlot_lt_length (arr : List (Option Stripe)) (i : Nat) (s : Option Stripe)
    (h : readSlot arr i = SlotRead.slot s) : i < arr.length := by
  by_contra hge
  push_neg at hge
  rw [(readSlot_oob arr i).mpr hge] at h
  exact SlotRead.noConfusion h

lemma readSlot_set_self (arr : List (Option Stripe)) (i : Nat) (s : Option Stripe)
    (h : i < arr.length) : readSlot (arr.set i s) i = SlotRead.slot s := by
  rw [readSlot_slot_iff, List.getElem?_set_self]
  · simp [h]

lemma readSlot_set_ne (arr : List (Option Stripe)) (i j : Nat) (s : Option Stripe)
    (h : j ≠ i) : readSlot (arr.set i s) j = readSlot arr j := by
  unfold readSlot
  rw [List.getElem?_set_ne (by omega)]

/-- Claim C1: the claim reads that every wbLsid outside the index space
    of the registry makes FinishStripe log and return as a no-op. The source
    guard is the strict comparison wbLsid > totalNvmStripes, so the boundary
    value wbLsid = totalNvmStripes passes the guard and the function goes on to
    read wbStripeArray at an out-of-range index (undefined behavior), while one
    past the boundary is correctly rejected. -/
theorem c1_finish_stripe_guard_off_by_one :
    (FinishStripe mBug 2 { stripeId := 0, offset := 3 }).1 = FinishRes.oobRead ∧
    (FinishStripe mBug 3 { stripeId := 0, offset := 3 }).1 = FinishRes.earlyReturn ∧
    FinishRes.oobRead ≠ FinishRes.earlyReturn := by
  refine ⟨rfl, rfl, by decide⟩

/-- Claim C3: _GetRemainingBlocks returns the null range on an unmap offset,
    on an offset beyond blksPerStripe, and on an exactly full tail; otherwise
    it returns the range from the tail to the end of the stripe. -/
theorem c3_get_remaining_blocks (m : WBStripeManager) (tail : VirtualBlkAddr)
    (hbps : m.blksPerStripe < 4294967296) :
    ((tail.offset = UNMAP_OFFSET ∨ m.blksPerStripe < tail.offset ∨
        tail.offset = m.blksPerStripe) →
      _GetRemainingBlocks m tail = { startVsa := UNMAP_VSA, numBlks := 0 }) ∧
    (tail.offset < m.blksPerStripe →
      _GetRemainingBlocks m tail = { startVsa := tail, numBlks := m.blksPerStripe - tail.offset }) := by
  have hu : UNMAP_OFFSET = 18446744073709551615 := rfl
  unfold _GetRemainingBlocks
  constructor
  · intro h
    split_ifs with h1 h2 h3
    · rfl
    · rfl
    · rfl
    · exfalso
      rcases h with h | h | h
      · exact h1 h
      · exact h2 h
      · exact h3 (by omega)
  · intro h
    split_ifs with h1 h2 h3
    · exfalso; rw [hu] at h1; omega
    · exact absurd h (by omega)
    · exact absurd h (by omega)
    · rfl

/-- Witness for C3 at a concrete state: a partial tail yields the remaining
    range, a full tail yields the null range. -/
theorem c3_witness :
    _GetRemainingBlocks mT { stripeId := 1, offset := 3 } =
      { startVsa := { stripeId := 1, offset := 3 }, numBlks := 5 } ∧
    _GetRemainingBlocks mT { stripeId := 1, offset := 8 } =
      { startVsa := UNMAP_VSA, numBlks := 0 } := by
  constructor
  · exact (c3_get_remaining_blocks mT { stripeId := 1, offset := 3 } (by decide)).2 (by decide)
  · exact (c3_get_remaining_blocks mT { stripeId := 1, offset := 8 } (by decide)).1
      (Or.inr (Or.inr (by decide)))

/-- Claim C7: for an address the stripe map reports in the user data area,
    _GetStripe returns null regardless of the registry, so ReferLsidCnt
    returns false and leaves the whole state, hence every refCount,
    unchanged. -/
theorem c7_refer_user_area (m : WBStripeManager) (lsa : StripeAddr)
    (h : m.isInUserDataArea lsa = true) :
    _GetStripe m lsa = SlotRead.slot none ∧ ReferLsidCnt m lsa = some (false, m) := by
  have h1 : _GetStripe m lsa = SlotRead.slot none := by
    unfold _GetStripe
    rw [if_pos h]
  refine ⟨h1, ?_⟩
  unfold ReferLsidCnt
  rw [h1]

/-- Witness for C7 at a concrete state and user-area address. -/
theorem c7_witness :
    _GetStripe mT { stripeLoc := StripeLoc.IN_USER_AREA, stripeId := 0 } = SlotRead.slot none ∧
    ReferLsidCnt mT { stripeLoc := StripeLoc.IN_USER_AREA, stripeId := 0 } = some (false, mT) :=
  c7_refer_user_area mT { stripeLoc := StripeLoc.IN_USER_AREA, stripeId := 0 } (by decide)

/-- Claim C10: outside the user area, _GetStripe indexes the registry with no
    bounds check; in a total embedding the read avoids the out-of-range branch
    exactly under the unchecked precondition lsa.stripeId < totalNvmStripes,
    and the same holds for ReferLsidCnt, DereferLsidCnt and GetStripe. -/
theorem c10_unchecked_registry_bounds (m : WBStripeManager) (lsa : StripeAddr)
    (wbLsid blockCount : Nat)
    (hlen : m.wbStripeArray.length = m.totalNvmStripes)
    (huser : m.isInUserDataArea lsa = false) :
    (_GetStripe m lsa ≠ SlotRead.outOfRange ↔ lsa.stripeId < m.totalNvmStripes) ∧
    (ReferLsidCnt m lsa ≠ none ↔ lsa.stripeId < m.totalNvmStripes) ∧
    (DereferLsidCnt m lsa blockCount ≠ none ↔ lsa.stripeId < m.totalNvmStripes) ∧
    (GetStripe m wbLsid ≠ SlotRead.outOfRange ↔ wbLsid < m.totalNvmStripes) := by
  have key : ∀ i, (readSlot m.wbStripeArray i ≠ SlotRead.outOfRange ↔ i < m.totalNvmStripes) := by
    intro i
    rw [Ne, readSlot_oob, hlen]
    omega
  have hg : _GetStripe m lsa = readSlot m.wbStripeArray lsa.stripeId := by
    unfold _GetStripe
    rw [huser]
    simp
  refine ⟨by rw [hg]; exact key _, ?_, ?_, key _⟩
  · have heq : (ReferLsidCnt m lsa = none) ↔ (_GetStripe m lsa = SlotRead.outOfRange) := by
      unfold ReferLsidCnt
      rcases h2 : _GetStripe m lsa with _ | s
      · simp
      · rcases s <;> simp
    rw [Ne, heq, ← Ne, hg]
    exact key _
  · have heq : (DereferLsidCnt m lsa blockCount = none) ↔ (_GetStripe m lsa = SlotRead.outOfRange) := by
      unfold DereferLsidCnt
      rcases h2 : _GetStripe m lsa with _ | s
      · simp
      · rcases s <;> simp
    rw [Ne, heq, ← Ne, hg]
    exact key _

/-- Witness for C10 at a concrete state: an in-range stripe id avoids the
    out-of-range branch, the boundary index totalNvmStripes hits it. -/
theorem c10_witness :
    _GetStripe mT { stripeLoc := StripeLoc.IN_WRITE_BUFFER_AREA, stripeId := 1 } ≠
      SlotRead.outOfRange ∧
    GetStripe mT 3 = SlotRead.outOfRange := by
  constructor
  · exact ((c10_unchecked_registry_bounds mT
      { stripeLoc := StripeLoc.IN_WRITE_BUFFER_AREA, stripeId := 1 } 1 0
      (by decide) (by decide)).1).mpr (by decide)
  · have h := (c10_unchecked_registry_bounds mT
      { stripeLoc := StripeLoc.IN_WRITE_BUFFER_AREA, stripeId := 1 } 3 0
      (by decide) (by decide)).2.2.2
    by_contra hne
    exact absurd (h.mp hne) (by decide)

lemma AssignStripe_empty (m : WBStripeManager) (stripe : Stripe)
    (h : readSlot m.wbStripeArray stripe.wbLsid = SlotRead.slot none) :
    AssignStripe m stripe = some (setSlot m stripe.wbLsid (some stripe)) := by
  unfold AssignStripe
  rw [h]

/-- Counterexample to claim C2 as stated: at a concrete empty slot,
    reconstruction with tail offset 0 does return WRONG_BLOCK_COUNT, but the
    registry slot at wbLsid is not as it was before the call: it has been
    populated with the freshly constructed stripe. -/
theorem c2_counterexample :
    (ReconstructActiveStripe mBug 7 0 { stripeId := 5, offset := 0 }).map Prod.fst =
      some ERRID_WRONG_BLOCK_COUNT ∧
    readSlot mBug.wbStripeArray 0 = SlotRead.slot none ∧
    (ReconstructActiveStripe mBug 7 0 { stripeId := 5, offset := 0 }).map
      (fun p => readSlot p.2.wbStripeArray 0) ≠ some (SlotRead.slot none) := by
  refine ⟨rfl, rfl, by decide⟩

/-- Claim C2 (amended): with tailVsa.offset = 0 on an empty slot,
    ReconstructActiveStripe returns WRONG_BLOCK_COUNT and the constructed
    stripe's blksRemaining is untouched (still blksPerStripe), but the fresh
    stripe has already been registered at slot wbLsid; every other slot and
    the active tails are unchanged. -/
theorem c2_reconstruct_error_registers_stripe (m : WBStripeManager)
    (volumeId wbLsid : Nat) (tailVsa : VirtualBlkAddr)
    (hslot : readSlot m.wbStripeArray wbLsid = SlotRead.slot none)
    (hoff : tailVsa.offset = 0) :
    ∃ ret m2, ReconstructActiveStripe m volumeId wbLsid tailVsa = some (ret, m2) ∧
      ret = ERRID_WRONG_BLOCK_COUNT ∧
      (∃ st, readSlot m2.wbStripeArray wbLsid = SlotRead.slot (some st) ∧
        st.blksRemaining = m.blksPerStripe ∧
        st.vsid = tailVsa.stripeId ∧
        st.volumeId = volumeId) ∧
      (∀ j, j ≠ wbLsid → readSlot m2.wbStripeArray j = readSlot m.wbStripeArray j) ∧
      m2.activeStripeTail = m.activeStripeTail := by
  have hlt : wbLsid < m.wbStripeArray.length := readSlot_lt_length _ _ _ hslot
  have hA : AssignStripe m ((newStripe m.blksPerStripe).Assign tailVsa.stripeId wbLsid
      (m.vsidToUserLsid tailVsa.stripeId) volumeId) =
      some (setSlot m wbLsid (some ((newStripe m.blksPerStripe).Assign tailVsa.stripeId wbLsid
        (m.vsidToUserLsid tailVsa.stripeId) volumeId))) :=
    AssignStripe_empty m _ hslot
  unfold ReconstructActiveStripe
  dsimp only
  rw [hA]
  have hras : _ReconstructAS ((newStripe m.blksPerStripe).Assign tailVsa.stripeId wbLsid
      (m.vsidToUserLsid tailVsa.stripeId) volumeId) tailVsa.offset =
      (ERRID_WRONG_BLOCK_COUNT, (newStripe m.blksPerStripe).Assign tailVsa.stripeId wbLsid
        (m.vsidToUserLsid tailVsa.stripeId) volumeId) := by
    unfold _ReconstructAS
    rw [if_pos hoff]
  rw [hras]
  dsimp only
  rw [if_neg (by norm_num [ERRID_WRONG_BLOCK_COUNT])]
  refine ⟨ERRID_WRONG_BLOCK_COUNT, _, rfl, rfl, ?_, ?_, rfl⟩
  · refine ⟨(newStripe m.blksPerStripe).Assign tailVsa.stripeId wbLsid
      (m.vsidToUserLsid tailVsa.stripeId) volumeId, ?_, rfl, rfl, rfl⟩
    show readSlot ((m.wbStripeArray.set wbLsid _).set wbLsid _) wbLsid = _
    exact readSlot_set_self _ _ _ (by rw [List.length_set]; exact hlt)
  · intro j hj
    show readSlot ((m.wbStripeArray.set wbLsid _).set wbLsid _) j = _
    rw [readSlot_set_ne _ _ _ _ hj, readSlot_set_ne _ _ _ _ hj]

/-- Witness for the amended C2 at a concrete empty slot. -/
theorem c2_witness :
    ∃ ret m2, ReconstructActiveStripe mBug 7 0 { stripeId := 5, offset := 0 } = some (ret, m2) ∧
      ret = ERRID_WRONG_BLOCK_COUNT ∧
      (∃ st, readSlot m2.wbStripeArray 0 = SlotRead.slot (some st) ∧
        st.blksRemaining = 8) := by
  obtain ⟨ret, m2, h1, h2, ⟨st, h3, h4, h5, h6⟩, h7, h8⟩ :=
    c2_reconstruct_error_registers_stripe mBug 7 0 { stripeId := 5, offset := 0 } rfl rfl
  exact ⟨ret, m2, h1, h2, st, h3, h4⟩

/-- Claim C8: reconstruction with a positive in-range offset on an empty slot
    registers at that slot a stripe carrying the tail's vsid, the translated
    user lsid, the given volume id, and blksPerStripe minus offset blocks
    remaining. -/
theorem c8_reconstruct_registers_stripe (m : WBStripeManager)
    (volumeId wbLsid : Nat) (tailVsa : VirtualBlkAddr)
    (hslot : readSlot m.wbStripeArray wbLsid = SlotRead.slot none)
    (hpos : 0 < tailVsa.offset) (hle : tailVsa.offset ≤ m.blksPerStripe) :
    ∃ ret m2 st, ReconstructActiveStripe m volumeId wbLsid tailVsa = some (ret, m2) ∧
      readSlot m2.wbStripeArray wbLsid = SlotRead.slot (some st) ∧
      st.vsid = tailVsa.stripeId ∧
      st.userLsid = m.vsidToUserLsid tailVsa.stripeId ∧
      st.volumeId = volumeId ∧
      st.wbLsid = wbLsid ∧
      st.blksRemaining = m.blksPerStripe - tailVsa.offset := by
  have hlt : wbLsid < m.wbStripeArray.length := readSlot_lt_length _ _ _ hslot
  have hA : AssignStripe m ((newStripe m.blksPerStripe).Assign tailVsa.stripeId wbLsid
      (m.vsidToUserLsid tailVsa.stripeId) volumeId) =
      some (setSlot m wbLsid (some ((newStripe m.blksPerStripe).Assign tailVsa.stripeId wbLsid
        (m.vsidToUserLsid tailVsa.stripeId) volumeId))) :=
    AssignStripe_empty m _ hslot
  unfold ReconstructActiveStripe
  dsimp only
  rw [hA]
  have hras : _ReconstructAS ((newStripe m.blksPerStripe).Assign tailVsa.stripeId wbLsid
      (m.vsidToUserLsid tailVsa.stripeId) volumeId) tailVsa.offset =
      (EID_SUCCESS,
        (((newStripe m.blksPerStripe).Assign tailVsa.stripeId wbLsid
          (m.vsidToUserLsid tailVsa.stripeId) volumeId).DecreseBlksRemaining tailVsa.offset).2) := by
    unfold _ReconstructAS
    rw [if_neg (by omega)]
  rw [hras]
  dsimp only
  rw [if_pos (by norm_num [EID_SUCCESS])]
  refine ⟨m.reconstructReverseMapRet, _,
    (((newStripe m.blksPerStripe).Assign tailVsa.stripeId wbLsid
      (m.vsidToUserLsid tailVsa.stripeId) volumeId).DecreseBlksRemaining tailVsa.offset).2,
    rfl, ?_, rfl, rfl, rfl, rfl, rfl⟩
  show readSlot ((m.wbStripeArray.set wbLsid _).set wbLsid _) wbLsid = _
  exact readSlot_set_self _ _ _ (by rw [List.length_set]; exact hlt)

/-- Witness for C8 at a concrete empty slot with offset equal to
    blksPerStripe: the registered stripe has zero blocks remaining. -/
theorem c8_witness :
    ∃ ret m2 st, ReconstructActiveStripe mBug 7 0 { stripeId := 5, offset := 8 } = some (ret, m2) ∧
      readSlot m2.wbStripeArray 0 = SlotRead.slot (some st) ∧
      st.vsid = 5 ∧ st.volumeId = 7 ∧ st.blksRemaining = 0 := by
  obtain ⟨ret, m2, st, h1, h2, h3, h4, h5, h6, h7⟩ :=
    c8_reconstruct_registers_stripe mBug 7 0 { stripeId := 5, offset := 8 } rfl
      (by decide) (by decide)
  exact ⟨ret, m2, st, h1, h2, h3, h5, h7.trans (by decide)⟩

lemma fillSentinels_blksRemaining : ∀ (c : Nat) (st : Stripe) (s : Nat),
    (fillSentinels st s c).blksRemaining = st.blksRemaining := by
  intro c
  induction c with
  | zero => intro st s; rfl
  | succ c ih =>
    intro st s
    unfold fillSentinels
    rw [ih]
    rfl

lemma fill_flushRequired (st : Stripe) (startOffset numBlks : Nat) :
    (_FillBlocksToStripe st startOffset numBlks).2 = (st.blksRemaining - numBlks == 0) := by
  unfold _FillBlocksToStripe Stripe.SetActiveFlushTarget Stripe.DecreseBlksRemaining
  dsimp only
  rw [fillSentinels_blksRemaining]

/-- Claim C4: FinishStripe never itself submits a flush, even when its fill
    drives blksRemaining to 0, while the arbiter's _FinishRemainingBlocks
    submits a flush exactly when its fill drives the slot stripe's
    blksRemaining to 0. -/
theorem c4_flush_submission_asymmetry :
    (∀ (m : WBStripeManager) (wbLsid : Nat) (tail : VirtualBlkAddr),
      hasFlushSubmit (FinishStripe m wbLsid tail).2.2 = false) ∧
    (∀ (m : WBStripeManager) (wbLsid startOffset numBlks : Nat) (st : Stripe),
      readSlot m.wbStripeArray wbLsid = SlotRead.slot (some st) →
      (hasFlushSubmit (_FinishRemainingBlocks m wbLsid startOffset numBlks).2.2 = true ↔
        st.blksRemaining - numBlks = 0)) := by
  constructor
  · intro m wbLsid tail
    unfold FinishStripe
    split_ifs
    · rfl
    · rcases h : readSlot m.wbStripeArray wbLsid with _ | s
      · rfl
      · rcases s with _ | st
        · rfl
        · rfl
  · intro m wbLsid startOffset numBlks st h
    unfold _FinishRemainingBlocks
    rw [h]
    dsimp only
    rw [fill_flushRequired]
    by_cases hz : st.blksRemaining - numBlks = 0
    · rw [if_pos (by simp [hz])]
      simp [hasFlushSubmit, hz]
    · rw [if_neg (by simp [hz])]
      simp [hasFlushSubmit, hz]

/-- Witness for C4 at a concrete state: a FinishStripe call whose fill
    empties the stripe still submits nothing, while the arbiter helper on the
    same slot submits. -/
theorem c4_witness :
    hasFlushSubmit (FinishStripe mT 2 { stripeId := 9, offset := 3 }).2.2 = false ∧
    hasFlushSubmit (_FinishRemainingBlocks mT 2 3 5).2.2 = true := by
  constructor
  · exact c4_flush_submission_asymmetry.1 mT 2 { stripeId := 9, offset := 3 }
  · exact (c4_flush_submission_asymmetry.2 mT 2 3 5 stripeC rfl).mpr (by decide)

lemma flushPendingLoop_acts_mem : ∀ (arr : List (Option Stripe)) (idx : Nat) (ret : Int)
    (i : Nat) (r : Int),
    WbAction.flushSubmit i r ∈ (flushPendingLoop arr idx ret).2 ↔
      ∃ j st, arr[j]? = some (some st) ∧ i = idx + j ∧
        st.blksRemaining = 0 ∧ st.finished = false ∧ r = st.flushResult := by
  intro arr
  induction arr with
  | nil =>
    intro idx ret i r
    simp [flushPendingLoop]
  | cons hd tl ih =>
    intro idx ret i r
    cases hd with
    | none =>
      unfold flushPendingLoop
      rw [ih]
      constructor
      · rintro ⟨j, st, hj, hi, h1, h2, h3⟩
        exact ⟨j + 1, st, by simpa using hj, by omega, h1, h2, h3⟩
      · rintro ⟨j, st, hj, hi, h1, h2, h3⟩
        cases j with
        | zero => simp at hj
        | succ j => exact ⟨j, st, by simpa using hj, by omega, h1, h2, h3⟩
    | some st0 =>
      unfold flushPendingLoop
      by_cases hq : st0.blksRemaining = 0 ∧ st0.finished = false
      · rw [if_pos hq]
        dsimp only
        rw [List.mem_cons, ih]
        constructor
        · rintro (heq | ⟨j, st, hj, hi, h1, h2, h3⟩)
          · rw [WbAction.flushSubmit.injEq] at heq
            exact ⟨0, st0, by simp, by omega, hq.1, hq.2, heq.2⟩
          · exact ⟨j + 1, st, by simpa using hj, by omega, h1, h2, h3⟩
        · rintro ⟨j, st, hj, hi, h1, h2, h3⟩
          cases j with
          | zero =>
            left
            simp only [List.getElem?_cons_zero, Option.some.injEq] at hj
            rw [WbAction.flushSubmit.injEq]
            subst hj
            exact ⟨by omega, h3⟩
          | succ j =>
            right
            exact ⟨j, st, by simpa using hj, by omega, h1, h2, h3⟩
      · rw [if_neg hq]
        rw [ih]
        constructor
        · rintro ⟨j, st, hj, hi, h1, h2, h3⟩
          exact ⟨j + 1, st, by simpa using hj, by omega, h1, h2, h3⟩
        · rintro ⟨j, st, hj, hi, h1, h2, h3⟩
          cases j with
          | zero =>
            simp only [List.getElem?_cons_zero, Option.some.injEq] at hj
            subst hj
            exact absurd ⟨h1, h2⟩ hq
          | succ j => exact ⟨j, st, by simpa using hj, by omega, h1, h2, h3⟩

lemma flushPendingLoop_ret : ∀ (arr : List (Option Stripe)) (idx : Nat) (ret : Int),
    (flushPendingLoop arr idx ret).1 = lastNegOr (pendingResults arr) ret := by
  intro arr
  induction arr with
  | nil => intro idx ret; rfl
  | cons hd tl ih =>
    intro idx ret
    cases hd with
    | none =>
      unfold flushPendingLoop
      rw [ih]
      simp [pendingResults]
    | some st0 =>
      unfold flushPendingLoop
      by_cases hq : st0.blksRemaining = 0 ∧ st0.finished = false
      · rw [if_pos hq]
        dsimp only
        rw [ih]
        simp only [pendingResults, List.filterMap_cons, if_pos hq]
        rfl
      · rw [if_neg hq]
        rw [ih]
        simp only [pendingResults, List.filterMap_cons, if_neg hq]

lemma lastNegOr_of_no_neg : ∀ (rs : List Int) (d : Int), (∀ r ∈ rs, ¬r < 0) →
    lastNegOr rs d = d := by
  intro rs
  induction rs with
  | nil => intro d _; rfl
  | cons hd tl ih =>
    intro d h
    unfold lastNegOr
    rw [List.foldl_cons, if_neg (h hd (by simp))]
    exact ih d fun r hr => h r (by simp [hr])

/-- Claim C5: FlushAllPendingStripes submits a flush for exactly the populated
    slots whose stripe is drained and not finished; a failed submission does
    not stop the scan (every qualifying slot is submitted regardless); the
    return value is the last negative submission result seen, and 0 when no
    submission failed. -/
theorem c5_flush_all_pending (m : WBStripeManager) :
    (∀ (i : Nat) (r : Int),
      WbAction.flushSubmit i r ∈ (FlushAllPendingStripes m).2 ↔
        ∃ st, m.wbStripeArray[i]? = some (some st) ∧
          st.blksRemaining = 0 ∧ st.finished = false ∧ r = st.flushResult) ∧
    (FlushAllPendingStripes m).1 = lastNegOr (pendingResults m.wbStripeArray) 0 ∧
    ((∀ r ∈ pendingResults m.wbStripeArray, ¬r < 0) → (FlushAllPendingStripes m).1 = 0) := by
  refine ⟨?_, flushPendingLoop_ret m.wbStripeArray 0 0, ?_⟩
  · intro i r
    unfold FlushAllPendingStripes
    rw [flushPendingLoop_acts_mem]
    constructor
    · rintro ⟨j, st, hj, hi, h1, h2, h3⟩
      exact ⟨st, by rwa [show i = j by omega], h1, h2, h3⟩
    · rintro ⟨st, hj, h1, h2, h3⟩
      exact ⟨i, st, hj, by omega, h1, h2, h3⟩
  · intro h
    unfold FlushAllPendingStripes
    rw [flushPendingLoop_ret]
    exact lastNegOr_of_no_neg _ 0 h

/-- Witness for C5 at a concrete state: the drained unfinished slots 0 and 1
    are both submitted, the partially filled slot 2 is not, and the return
    value is the failing result of slot 0. -/
theorem c5_witness :
    WbAction.flushSubmit 0 (-7) ∈ (FlushAllPendingStripes mT).2 ∧
    WbAction.flushSubmit 1 2 ∈ (FlushAllPendingStripes mT).2 ∧
    (FlushAllPendingStripes mT).1 = -7 := by
  refine ⟨?_, ?_, ?_⟩
  · exact ((c5_flush_all_pending mT).1 0 (-7)).mpr ⟨stripeA, by decide, by decide, by decide, by decide⟩
  · exact ((c5_flush_all_pending mT).1 1 2).mpr ⟨stripeB, by decide, by decide, by decide, by decide⟩
  · exact ((c5_flush_all_pending mT).2.1).trans (by decide)

lemma finishRemaining_ne_retNull (m : WBStripeManager) (wbLsid startOffset numBlks : Nat) :
    (_FinishRemainingBlocks m wbLsid startOffset numBlks).1 ≠ FASResult.retNull := by
  unfold _FinishRemainingBlocks
  rcases h : readSlot m.wbStripeArray wbLsid with _ | s
  · simp
  · rcases s with _ | st
    · simp
    · dsimp only
      split_ifs <;> simp

lemma remaining_null_iff (m : WBStripeManager) (tail : VirtualBlkAddr) :
    (_GetRemainingBlocks m tail).startVsa = UNMAP_VSA ↔
      (tail.offset = UNMAP_OFFSET ∨ m.blksPerStripe < tail.offset ∨
        tail.offset = m.blksPerStripe) := by
  unfold _GetRemainingBlocks
  split_ifs with h1 h2 h3
  · dsimp only
    exact ⟨fun _ => Or.inl h1, fun _ => rfl⟩
  · dsimp only
    exact ⟨fun _ => Or.inr (Or.inl h2), fun _ => rfl⟩
  · dsimp only
    constructor
    · intro _
      right; right; omega
    · intro _; rfl
  · dsimp only
    constructor
    · intro h
      exfalso
      apply h1
      rw [h]
      rfl
    · rintro (h | h | h)
      · exact absurd h h1
      · exact absurd h h2
      · exact absurd (show m.blksPerStripe - tail.offset = 0 by omega) h3

/-- Claim C6: _FinishActiveStripe returns null exactly when the active tail is
    UNMAP_VSA, or the stripe map maps the tail's stripe id to the user area or
    to the unmap stripe, or the remaining range is null (unmap offset, offset
    beyond blksPerStripe, or offset exactly blksPerStripe); in every
    null-returning case no flush is submitted and the registry, hence every
    reverse map, is untouched. -/
theorem c6_finish_active_stripe_null (m : WBStripeManager) (index : Nat) :
    ((_FinishActiveStripe m index).1 = FASResult.retNull ↔
      (m.activeStripeTail index = UNMAP_VSA ∨
       (m.lsaMap (m.activeStripeTail index).stripeId).stripeLoc = StripeLoc.IN_USER_AREA ∨
       (m.lsaMap (m.activeStripeTail index).stripeId).stripeId = UNMAP_STRIPE ∨
       (m.activeStripeTail index).offset = UNMAP_OFFSET ∨
       m.blksPerStripe < (m.activeStripeTail index).offset ∨
       (m.activeStripeTail index).offset = m.blksPerStripe)) ∧
    ((_FinishActiveStripe m index).1 = FASResult.retNull →
      (_FinishActiveStripe m index).2.2 = [] ∧
      (_FinishActiveStripe m index).2.1.wbStripeArray = m.wbStripeArray) := by
  constructor
  · unfold _FinishActiveStripe _AllocateRemainingBlocks
    dsimp only
    by_cases h1 : m.activeStripeTail index = UNMAP_VSA
    · rw [if_pos h1]
      exact ⟨fun _ => Or.inl h1, fun _ => rfl⟩
    · rw [if_neg h1]
      by_cases h2 : (m.lsaMap (m.activeStripeTail index).stripeId).stripeLoc = StripeLoc.IN_USER_AREA ∨
          (m.lsaMap (m.activeStripeTail index).stripeId).stripeId = UNMAP_STRIPE
      · rw [if_pos h2]
        constructor
        · intro _
          rcases h2 with h2 | h2
          · exact Or.inr (Or.inl h2)
          · exact Or.inr (Or.inr (Or.inl h2))
        · intro _; rfl
      · rw [if_neg h2]
        by_cases h3 : (_GetRemainingBlocks m (m.activeStripeTail index)).startVsa = UNMAP_VSA
        · rw [if_pos h3]
          constructor
          · intro _
            rcases (remaining_null_iff m (m.activeStripeTail index)).mp h3 with h | h | h
            · exact Or.inr (Or.inr (Or.inr (Or.inl h)))
            · exact Or.inr (Or.inr (Or.inr (Or.inr (Or.inl h))))
            · exact Or.inr (Or.inr (Or.inr (Or.inr (Or.inr h))))
          · intro _; rfl
        · rw [if_neg h3]
          constructor
          · intro hcon
            exact absurd hcon (finishRemaining_ne_retNull _ _ _ _)
          · intro hrhs
            exfalso
            rcases hrhs with h | h | h | h | h | h
            · exact h1 h
            · exact h2 (Or.inl h)
            · exact h2 (Or.inr h)
            · exact h3 ((remaining_null_iff _ _).mpr (Or.inl h))
            · exact h3 ((remaining_null_iff _ _).mpr (Or.inr (Or.inl h)))
            · exact h3 ((remaining_null_iff _ _).mpr (Or.inr (Or.inr h)))
  · intro hnull
    unfold _FinishActiveStripe _AllocateRemainingBlocks at hnull ⊢
    dsimp only at hnull ⊢
    by_cases h1 : m.activeStripeTail index = UNMAP_VSA
    · rw [if_pos h1]
      exact ⟨rfl, rfl⟩
    · rw [if_neg h1] at hnull ⊢
      by_cases h2 : (m.lsaMap (m.activeStripeTail index).stripeId).stripeLoc = StripeLoc.IN_USER_AREA ∨
          (m.lsaMap (m.activeStripeTail index).stripeId).stripeId = UNMAP_STRIPE
      · rw [if_pos h2]
        exact ⟨rfl, rfl⟩
      · rw [if_neg h2] at hnull ⊢
        by_cases h3 : (_GetRemainingBlocks m (m.activeStripeTail index)).startVsa = UNMAP_VSA
        · rw [if_pos h3]
          exact ⟨rfl, rfl⟩
        · rw [if_neg h3] at hnull
          exact absurd hnull (finishRemaining_ne_retNull _ _ _ _)

/-- Witness for C6 at a concrete state whose active tail is UNMAP_VSA: null
    return, no actions, registry untouched. -/
theorem c6_witness :
    (_FinishActiveStripe mT 0).1 = FASResult.retNull ∧
    (_FinishActiveStripe mT 0).2.2 = [] ∧
    (_FinishActiveStripe mT 0).2.1.wbStripeArray = mT.wbStripeArray := by
  have h := c6_finish_active_stripe_null mT 0
  have h1 : (_FinishActiveStripe mT 0).1 = FASResult.retNull := h.1.mpr (Or.inl rfl)
  exact ⟨h1, (h.2 h1).1, (h.2 h1).2⟩

lemma finishRemaining_acts (m : WBStripeManager) (wbLsid startOffset numBlks : Nat)
    (a : WbAction) (h : a ∈ (_FinishRemainingBlocks m wbLsid startOffset numBlks).2.2) :
    ∃ w r, a = WbAction.flushSubmit w r := by
  unfold _FinishRemainingBlocks at h
  rcases hs : readSlot m.wbStripeArray wbLsid with _ | s
  · rw [hs] at h
    simp at h
  · rcases s with _ | st
    · rw [hs] at h
      simp at h
    · rw [hs] at h
      dsimp only at h
      split_ifs at h
      · rw [List.mem_singleton] at h
        exact ⟨_, _, h⟩
      · simp at h

lemma fas_acts (m : WBStripeManager) (index : Nat) (a : WbAction)
    (h : a ∈ (_FinishActiveStripe m index).2.2) :
    ∃ w r, a = WbAction.flushSubmit w r := by
  unfold _FinishActiveStripe _AllocateRemainingBlocks at h
  dsimp only at h
  split_ifs at h
  · simp at h
  · simp at h
  · simp at h
  · exact finishRemaining_acts _ _ _ _ a h

lemma finishRemaining_frame_ne (m : WBStripeManager) (wbLsid startOffset numBlks i : Nat)
    (hne : i ≠ wbLsid) :
    (_FinishRemainingBlocks m wbLsid startOffset numBlks).2.1.wbStripeArray[i]? =
      m.wbStripeArray[i]? := by
  unfold _FinishRemainingBlocks
  rcases hs : readSlot m.wbStripeArray wbLsid with _ | s
  · rfl
  · rcases s with _ | st
    · rfl
    · dsimp only
      split_ifs
      · exact List.getElem?_set_ne (by omega)
      · exact List.getElem?_set_ne (by omega)

lemma fas_frame (m : WBStripeManager) (v i : Nat) (st : Stripe)
    (hCons : ∀ st2, readSlot m.wbStripeArray (activeWbLsid m v) = SlotRead.slot (some st2) →
      st2.volumeId = v)
    (hi : m.wbStripeArray[i]? = some (some st)) (hne : st.volumeId ≠ v) :
    (_FinishActiveStripe m v).2.1.wbStripeArray[i]? = some (some st) := by
  by_cases hiw : i = activeWbLsid m v
  · exfalso
    apply hne
    apply hCons st
    rw [readSlot_slot_iff]
    rw [← hiw]
    exact hi
  · unfold activeWbLsid at hiw
    unfold _FinishActiveStripe _AllocateRemainingBlocks
    dsimp only
    split_ifs
    · exact hi
    · exact hi
    · exact hi
    · rw [finishRemaining_frame_ne _ _ _ _ _ hiw]
      exact hi

lemma waitVolumeActs_mem : ∀ (arr : List (Option Stripe)) (idx v i : Nat),
    WbAction.waitFlush i ∈ waitVolumeActs arr idx v →
    ∃ j st, arr[j]? = some (some st) ∧ i = idx + j ∧ st.volumeId = v := by
  intro arr
  induction arr with
  | nil =>
    intro idx v i h
    simp [waitVolumeActs] at h
  | cons hd tl ih =>
    intro idx v i h
    cases hd with
    | none =>
      unfold waitVolumeActs at h
      obtain ⟨j, st, hj, hij, hv⟩ := ih (idx + 1) v i h
      exact ⟨j + 1, st, by simpa using hj, by omega, hv⟩
    | some st0 =>
      unfold waitVolumeActs at h
      by_cases hq : st0.volumeId = v
      · rw [if_pos hq] at h
        rcases List.mem_cons.mp h with heq | h2
        · rw [WbAction.waitFlush.injEq] at heq
          exact ⟨0, st0, by simp, by omega, hq⟩
        · obtain ⟨j, st, hj, hij, hv⟩ := ih (idx + 1) v i h2
          exact ⟨j + 1, st, by simpa using hj, by omega, hv⟩
      · rw [if_neg hq] at h
        obtain ⟨j, st, hj, hij, hv⟩ := ih (idx + 1) v i h
        exact ⟨j + 1, st, by simpa using hj, by omega, hv⟩

lemma waitVolumeActs_shape : ∀ (arr : List (Option Stripe)) (idx v : Nat) (a : WbAction),
    a ∈ waitVolumeActs arr idx v → ∃ w, a = WbAction.waitFlush w := by
  intro arr
  induction arr with
  | nil =>
    intro idx v a h
    simp [waitVolumeActs] at h
  | cons hd tl ih =>
    intro idx v a h
    cases hd with
    | none => exact ih (idx + 1) v a h
    | some st0 =>
      unfold waitVolumeActs at h
      by_cases hq : st0.volumeId = v
      · rw [if_pos hq] at h
        rcases List.mem_cons.mp h with heq | h2
        · exact ⟨idx, heq⟩
        · exact ih (idx + 1) v a h2
      · rw [if_neg hq] at h
        exact ih (idx + 1) v a h

lemma attachActs_mem : ∀ (arr : List (Option Stripe)) (idx v fio i f : Nat),
    WbAction.attachFlushIo i f ∈ attachActs arr idx v fio →
    ∃ j st, arr[j]? = some (some st) ∧ i = idx + j ∧ st.volumeId = v := by
  intro arr
  induction arr with
  | nil =>
    intro idx v fio i f h
    simp [attachActs] at h
  | cons hd tl ih =>
    intro idx v fio i f h
    cases hd with
    | none =>
      unfold attachActs at h
      obtain ⟨j, st, hj, hij, hv⟩ := ih (idx + 1) v fio i f h
      exact ⟨j + 1, st, by simpa using hj, by omega, hv⟩
    | some st0 =>
      unfold attachActs at h
      by_cases hq : st0.volumeId = v
      · rw [if_pos hq] at h
        rcases List.mem_cons.mp h with heq | h2
        · rw [WbAction.attachFlushIo.injEq] at heq
          exact ⟨0, st0, by simp, by omega, hq⟩
        · obtain ⟨j, st, hj, hij, hv⟩ := ih (idx + 1) v fio i f h2
          exact ⟨j + 1, st, by simpa using hj, by omega, hv⟩
      · rw [if_neg hq] at h
        obtain ⟨j, st, hj, hij, hv⟩ := ih (idx + 1) v fio i f h
        exact ⟨j + 1, st, by simpa using hj, by omega, hv⟩

lemma attachActs_shape : ∀ (arr : List (Option Stripe)) (idx v fio : Nat) (a : WbAction),
    a ∈ attachActs arr idx v fio → ∃ w f, a = WbAction.attachFlushIo w f := by
  intro arr
  induction arr with
  | nil =>
    intro idx v fio a h
    simp [attachActs] at h
  | cons hd tl ih =>
    intro idx v fio a h
    cases hd with
    | none => exact ih (idx + 1) v fio a h
    | some st0 =>
      unfold attachActs at h
      by_cases hq : st0.volumeId = v
      · rw [if_pos hq] at h
        rcases List.mem_cons.mp h with heq | h2
        · exact ⟨idx, fio, heq⟩
        · exact ih (idx + 1) v fio a h2
      · rw [if_neg hq] at h
        exact ih (idx + 1) v fio a h

lemma attachFlushIoAll_frame (arr : List (Option Stripe)) (v fio i : Nat) (st : Stripe)
    (hi : arr[i]? = some (some st)) (hne : st.volumeId ≠ v) :
    (attachFlushIoAll arr v fio)[i]? = some (some st) := by
  unfold attachFlushIoAll
  rw [List.getElem?_map, hi, Option.map_some']
  dsimp only
  rw [if_neg hne]

/-- Claim C9: both arities of FlushAllPendingStripesInVolume act only on
    stripes of the given volume. Under the consistency hypothesis that the
    active-tail slot of the volume, when populated, belongs to that volume,
    every populated stripe of a different volume is left unchanged, is not
    waited on, gets no flush io attached, and the call returns 0. -/
theorem c9_volume_scoped_quiesce (m : WBStripeManager) (volumeId flushIo : Nat)
    (hCons : ∀ st, readSlot m.wbStripeArray (activeWbLsid m volumeId) = SlotRead.slot (some st) →
      st.volumeId = volumeId) :
    (∀ ret m1 acts, FlushAllPendingStripesInVolume m volumeId = some (ret, m1, acts) →
      ret = 0 ∧ ∀ i st, m.wbStripeArray[i]? = some (some st) → st.volumeId ≠ volumeId →
        m1.wbStripeArray[i]? = some (some st) ∧
        WbAction.waitFlush i ∉ acts ∧
        ∀ fio, WbAction.attachFlushIo i fio ∉ acts) ∧
    (∀ ret m1 acts, FlushAllPendingStripesInVolumeWithIo m volumeId flushIo = some (ret, m1, acts) →
      ret = 0 ∧ ∀ i st, m.wbStripeArray[i]? = some (some st) → st.volumeId ≠ volumeId →
        m1.wbStripeArray[i]? = some (some st) ∧
        WbAction.waitFlush i ∉ acts ∧
        ∀ fio, WbAction.attachFlushIo i fio ∉ acts) := by
  constructor
  · intro ret m1 acts heq
    unfold FlushAllPendingStripesInVolume at heq
    dsimp only at heq
    rcases hres : (_FinishActiveStripe m volumeId).1 with _ | _ | st' <;> rw [hres] at heq
    · simp only [Option.some.injEq, Prod.mk.injEq] at heq
      obtain ⟨h0, hm1, ha⟩ := heq
      subst h0
      subst hm1
      subst ha
      refine ⟨rfl, ?_⟩
      intro i st hi hv
      have hframe := fas_frame m volumeId i st hCons hi hv
      refine ⟨hframe, ?_, ?_⟩
      · intro hmem
        rcases List.mem_append.mp hmem with h2 | h2
        · obtain ⟨w, r, habs⟩ := fas_acts m volumeId _ h2
          exact WbAction.noConfusion habs
        · obtain ⟨j, st2, hj, hij, hv2⟩ := waitVolumeActs_mem _ _ _ _ h2
          have hji : j = i := by omega
          subst hji
          rw [hframe] at hj
          simp only [Option.some.injEq] at hj
          subst hj
          exact hv hv2
      · intro fio hmem
        rcases List.mem_append.mp hmem with h2 | h2
        · obtain ⟨w, r, habs⟩ := fas_acts m volumeId _ h2
          exact WbAction.noConfusion habs
        · obtain ⟨w, habs⟩ := waitVolumeActs_shape _ _ _ _ h2
          exact WbAction.noConfusion habs
    · exact Option.noConfusion heq
    · simp only [Option.some.injEq, Prod.mk.injEq] at heq
      obtain ⟨h0, hm1, ha⟩ := heq
      subst h0
      subst hm1
      subst ha
      refine ⟨rfl, ?_⟩
      intro i st hi hv
      have hframe := fas_frame m volumeId i st hCons hi hv
      refine ⟨hframe, ?_, ?_⟩
      · intro hmem
        rcases List.mem_append.mp hmem with h2 | h2
        · obtain ⟨w, r, habs⟩ := fas_acts m volumeId _ h2
          exact WbAction.noConfusion habs
        · obtain ⟨j, st2, hj, hij, hv2⟩ := waitVolumeActs_mem _ _ _ _ h2
          have hji : j = i := by omega
          subst hji
          rw [hframe] at hj
          simp only [Option.some.injEq] at hj
          subst hj
          exact hv hv2
      · intro fio hmem
        rcases List.mem_append.mp hmem with h2 | h2
        · obtain ⟨w, r, habs⟩ := fas_acts m volumeId _ h2
          exact WbAction.noConfusion habs
        · obtain ⟨w, habs⟩ := waitVolumeActs_shape _ _ _ _ h2
          exact WbAction.noConfusion habs
  · intro ret m1 acts heq
    unfold FlushAllPendingStripesInVolumeWithIo at heq
    by_cases hm : m.volumeMounted volumeId = true
    · rw [if_pos hm] at heq
      dsimp only at heq
      rcases hres : (_FinishActiveStripe m volumeId).1 with _ | _ | st' <;> rw [hres] at heq
      · simp only [Option.some.injEq, Prod.mk.injEq] at heq
        obtain ⟨h0, hm1, ha⟩ := heq
        subst h0
        subst hm1
        subst ha
        refine ⟨rfl, ?_⟩
        intro i st hi hv
        have hframe := fas_frame m volumeId i st hCons hi hv
        refine ⟨attachFlushIoAll_frame _ _ _ _ _ hframe hv, ?_, ?_⟩
        · intro hmem
          rcases List.mem_append.mp hmem with h2 | h2
          · obtain ⟨w, r, habs⟩ := fas_acts m volumeId _ h2
            exact WbAction.noConfusion habs
          · obtain ⟨w, f, habs⟩ := attachActs_shape _ _ _ _ _ h2
            exact WbAction.noConfusion habs
        · intro fio hmem
          rcases List.mem_append.mp hmem with h2 | h2
          · obtain ⟨w, r, habs⟩ := fas_acts m volumeId _ h2
            exact WbAction.noConfusion habs
          · obtain ⟨j, st2, hj, hij, hv2⟩ := attachActs_mem _ _ _ _ _ _ h2
            have hji : j = i := by omega
            subst hji
            rw [hframe] at hj
            simp only [Option.some.injEq] at hj
            subst hj
            exact hv hv2
      · exact Option.noConfusion heq
      · simp only [Option.some.injEq, Prod.mk.injEq] at heq
        obtain ⟨h0, hm1, ha⟩ := heq
        subst h0
        subst hm1
        subst ha
        refine ⟨rfl, ?_⟩
        intro i st hi hv
        have hframe := fas_frame m volumeId i st hCons hi hv
        refine ⟨attachFlushIoAll_frame _ _ _ _ _ hframe hv, ?_, ?_⟩
        · intro hmem
          rcases List.mem_append.mp hmem with h2 | h2
          · obtain ⟨w, r, habs⟩ := fas_acts m volumeId _ h2
            exact WbAction.noConfusion habs
          · obtain ⟨w, f, habs⟩ := attachActs_shape _ _ _ _ _ h2
            exact WbAction.noConfusion habs
        · intro fio hmem
          rcases List.mem_append.mp hmem with h2 | h2
          · obtain ⟨w, r, habs⟩ := fas_acts m volumeId _ h2
            exact WbAction.noConfusion habs
          · obtain ⟨j, st2, hj, hij, hv2⟩ := attachActs_mem _ _ _ _ _ _ h2
            have hji : j = i := by omega
            subst hji
            rw [hframe] at hj
            simp only [Option.some.injEq] at hj
            subst hj
            exact hv hv2
    · rw [if_neg hm] at heq
      simp only [Option.some.injEq, Prod.mk.injEq] at heq
      obtain ⟨h0, hm1, ha⟩ := heq
      subst h0
      subst hm1
      subst ha
      refine ⟨rfl, ?_⟩
      intro i st hi hv
      exact ⟨hi, by simp, by simp⟩

/-- Witness for C9 at a concrete state holding a volume-3 and a volume-4
    stripe: quiescing volume 3 returns 0, leaves the volume-4 slot as it was,
    and neither waits on it nor attaches a flush io to it. -/
theorem c9_witness :
    mT.wbStripeArray[1]? = some (some stripeB) ∧
    WbAction.waitFlush 1 ∉ [WbAction.waitFlush 0, WbAction.waitFlush 2] ∧
    WbAction.attachFlushIo 1 99 ∉ [WbAction.waitFlush 0, WbAction.waitFlush 2] := by
  have hCons : ∀ st, readSlot mT.wbStripeArray (activeWbLsid mT 3) = SlotRead.slot (some st) →
      st.volumeId = 3 := by
    intro st h
    have : st = stripeA := by
      have hr : readSlot mT.wbStripeArray (activeWbLsid mT 3) = SlotRead.slot (some stripeA) := rfl
      rw [hr] at h
      injection h with h2
      injection h2 with h3
      exact h3.symm
    rw [this]
    rfl
  have h := ((c9_volume_scoped_quiesce mT 3 99 hCons).1 0 mT
    [WbAction.waitFlush 0, WbAction.waitFlush 2] rfl).2 1 stripeB rfl (by decide)
  exact ⟨h.1, h.2.1, fun hmem => h.2.2 99 hmem⟩
